import Mathlib

/-!
Verification of the telepatia pipeline orchestrator and its stage adapters.

The development is a shallow embedding of `functions/src` (the pipeline
HTTP handler, the extract-stage normalizer and Ajv validation, and the
diagnose-stage JSON parse/repair step).  External collaborators (the
transcribe, extract and diagnose services, and the two LLM backends) are
modelled as oracles; the wall clock is modelled as a single timestamp that
is constant for the duration of one request, so elapsed times are zero and
the generated correlation id is `corr-<now>`.  JSON numbers are modelled as
integers (no claim involves fractional values), and JS strings as Lean
strings (lists of characters where scanning matters).
-/

namespace TP

/-- JSON values (numbers restricted to integers). -/
inductive Json where
  | null : Json
  | bool (b : Bool) : Json
  | num (n : Int) : Json
  | str (s : String) : Json
  | arr (elems : List Json) : Json
  | obj (fields : List (String × Json)) : Json

/-- First binding of a key in a JS object, modelled as an assoc list. -/
def jsLookup (fs : List (String × Json)) (k : String) : Option Json :=
  match fs with
  | [] => none
  | (k', v) :: rest => if k' = k then some v else jsLookup rest k

inductive AudioType where
  | url : AudioType
  | base64 : AudioType
deriving DecidableEq

structure Audio where
  type : AudioType
  value : String
deriving DecidableEq

/-- Parsed `input` union of the pipeline body (zod `TextInputSchema` /
`AudioInputSchema`; the `.default(...).optional()` combination never fires
the default, so optional fields stay optional). -/
inductive PipelineInput where
  | text (text : String) (language : Option String) (correlationId : Option String)
  | audio (audio : Audio) (filename : Option String) (language : Option String)
      (hint : Option String) (correlationId : Option String)
deriving DecidableEq

inductive ProviderOpt where
  | gemini : ProviderOpt
  | openai : ProviderOpt
deriving DecidableEq

def ProviderOpt.name : ProviderOpt → String
  | .gemini => "gemini"
  | .openai => "openai"

structure PipelineOptions where
  provider : Option ProviderOpt
deriving DecidableEq

structure PipelineBody where
  input : PipelineInput
  options : Option PipelineOptions
deriving DecidableEq

/-- `TranscribeInput` as the pipeline builds it (both zod branches build the
same record shape). -/
structure TranscribeInput where
  audio : Audio
  filename : Option String
  language : Option String
  hint : Option String
  correlationId : Option String
deriving DecidableEq

/-- `TranscribeResult`; `language` is optional here because the pipeline
guards it with `??` and mocks may omit it. -/
structure TranscribeResult where
  text : String
  language : Option String
  correlationId : Option String
deriving DecidableEq

structure ExtractionRequest where
  transcript : String
  language : String
  correlationId : String
deriving DecidableEq

inductive Sex where
  | M : Sex
  | F : Sex
  | X : Sex
deriving DecidableEq

structure Patient where
  age : Option Int
  sex : Option Sex
deriving DecidableEq

structure ExtractionResponseData where
  patient : Option Patient
  symptoms : Option (List String)
  onsetDays : Option Int
  riskFlags : Option (List String)
  notes : Option String
deriving DecidableEq

/-- Extraction projected for diagnose: arrays defaulted to `[]`. -/
structure ExtractionForDiagnose where
  patient : Option Patient
  symptoms : List String
  riskFlags : List String
  onsetDays : Option Int
  notes : Option String
deriving DecidableEq

structure DiagnoseRequest where
  extraction : ExtractionForDiagnose
  language : String
  correlationId : String
deriving DecidableEq

inductive Severity where
  | low : Severity
  | moderate : Severity
  | high : Severity
deriving DecidableEq

structure LlmOutput where
  summary : String
  differentials : List String
  recommendations : List String
  severity : Severity
deriving DecidableEq

/-- The three external stage adapters, as oracles.  `Except.error` models a
thrown exception carrying the error message. -/
structure Services where
  transcribe : TranscribeInput → Except String TranscribeResult
  extract : ExtractionRequest → Except String ExtractionResponseData
  diagnose : DiagnoseRequest → Except String LlmOutput

/-- Record of every external-service invocation of one request. -/
structure CallLog where
  transcribeCalls : List TranscribeInput
  extractCalls : List ExtractionRequest
  diagnoseCalls : List DiagnoseRequest
deriving DecidableEq

def emptyLog : CallLog := ⟨[], [], []⟩

structure Timings where
  transcribe : Nat
  extract : Nat
  diagnose : Nat
  total : Nat
deriving DecidableEq

/-- The pipeline's response bodies, one constructor per `res.json` shape. -/
inductive ResponseBody where
  | validationError (error : String) (details : List String)
  | transcribeError (error : String)
  | unsupportedLanguage (error : String) (correlationId : String)
  | unknownError (error : String)
  | success (timingsMs : Timings) (transcript : String)
      (extracted : ExtractionResponseData) (diagnosis : LlmOutput)
      (correlationId : String) (provider : String)
deriving DecidableEq

structure HttpResponse where
  status : Nat
  body : ResponseBody
deriving DecidableEq

structure Env where
  PROVIDER : Option String
deriving DecidableEq

def ResponseBody.isSuccess : ResponseBody → Bool
  | .success _ _ _ _ _ _ => true
  | _ => false

def ResponseBody.isUnsupportedLanguage : ResponseBody → Bool
  | .unsupportedLanguage _ _ => true
  | _ => false

def ResponseBody.transcriptF : ResponseBody → Option String
  | .success _ tr _ _ _ _ => some tr
  | _ => none

def ResponseBody.correlationIdF : ResponseBody → Option String
  | .unsupportedLanguage _ c => some c
  | .success _ _ _ _ c _ => some c
  | _ => none

def ResponseBody.providerF : ResponseBody → Option String
  | .success _ _ _ _ _ p => some p
  | _ => none

def ResponseBody.clearProvider : ResponseBody → ResponseBody
  | .success tm tr ex d c _ => .success tm tr ex d c ""
  | b => b

def SUPPORTED_LANGS : List String := ["es", "en"]

/-- `locale?.split("-")[0]?.toLowerCase() || ""`: the segment before the
first hyphen, lowercased (ASCII case mapping; the supported tags are ASCII). -/
def primaryLang (locale : String) : String :=
  ⟨(locale.data.takeWhile (fun c => c ≠ '-')).map Char.toLower⟩

def genCorr (now : Nat) : String := "corr-" ++ toString now

/-- `options?.provider ?? process.env.PROVIDER ?? "gemini"`. -/
def resolveProvider (opts : Option PipelineOptions) (env : Env) : String :=
  match opts.bind (fun o => o.provider) with
  | some p => p.name
  | none => env.PROVIDER.getD "gemini"

/-- Step 1 of the pipeline handler: branch on input shape, transcribe when
audio, resolve transcript/language/correlationId.  `Except.error` carries the
early response (transcribe throw is caught by the top-level catch as
`step:"unknown"`; empty transcription text answers `step:"transcribe"`). -/
def resolveStage1 (svc : Services) (now : Nat) :
    PipelineInput → Except (HttpResponse × CallLog) (String × String × String × CallLog)
  | .text t lang corr =>
      .ok (t, lang.getD "es-AR", corr.getD (genCorr now), emptyLog)
  | .audio a fn lang hint corr =>
      let trInput : TranscribeInput := ⟨a, fn, lang, hint, corr⟩
      let log : CallLog := ⟨[trInput], [], []⟩
      match svc.transcribe trInput with
      | .error msg => .error (⟨500, .unknownError msg⟩, log)
      | .ok tr =>
          if tr.text = "" then
            .error (⟨500, .transcribeError "Transcription has no text"⟩, log)
          else
            .ok (tr.text, lang.getD (tr.language.getD "es-AR"),
                 corr.getD (genCorr now), log)

/-- Steps 2-3 of the pipeline handler: language gate, extract, diagnose,
success assembly.  Thrown adapter errors become `step:"unknown"`/500. -/
def afterTranscript (svc : Services) (env : Env) (opts : Option PipelineOptions)
    (transcript lang corrId : String) (log : CallLog) : HttpResponse × CallLog :=
  if SUPPORTED_LANGS.contains (primaryLang lang) then
    let exReq : ExtractionRequest := ⟨transcript, lang, corrId⟩
    let log1 : CallLog := { log with extractCalls := log.extractCalls ++ [exReq] }
    match svc.extract exReq with
    | .error msg => (⟨500, .unknownError msg⟩, log1)
    | .ok ext =>
        let e4d : ExtractionForDiagnose :=
          ⟨ext.patient, ext.symptoms.getD [], ext.riskFlags.getD [], ext.onsetDays, ext.notes⟩
        let dReq : DiagnoseRequest := ⟨e4d, lang, corrId⟩
        let log2 : CallLog := { log1 with diagnoseCalls := log1.diagnoseCalls ++ [dReq] }
        match svc.diagnose dReq with
        | .error msg => (⟨500, .unknownError msg⟩, log2)
        | .ok diag =>
            (⟨200, .success ⟨0, 0, 0, 0⟩ transcript ext diag corrId (resolveProvider opts env)⟩,
             log2)
  else
    (⟨400, .unsupportedLanguage "unsupported language" corrId⟩, log)

/-- The pipeline `app.post("/")` handler after body validation. -/
def handleParsed (svc : Services) (now : Nat) (env : Env) (pb : PipelineBody) :
    HttpResponse × CallLog :=
  match resolveStage1 svc now pb.input with
  | .error rl => rl
  | .ok (transcript, lang, corrId, log) =>
      afterTranscript svc env pb.options transcript lang corrId log

/-! Body validation: model of `PipelineBodySchema.safeParse`.  Issues are
rendered as `path: message` strings; zod collects the issues of every field
of an object, and unions report the issues of both failed branches. -/

def getOptStr (fs : List (String × Json)) (key : String) : Option String :=
  match jsLookup fs key with
  | some (.str s) => some s
  | _ => none

/-- Issues of an optional `z.string()` field. -/
def optStrIssues (fs : List (String × Json)) (path key : String) : List String :=
  match jsLookup fs key with
  | none => []
  | some (.str _) => []
  | some _ => [path ++ ": Expected string"]

def parseTextInput (j : Json) : Except (List String) PipelineInput :=
  match j with
  | .obj fs =>
      let tIss : List String :=
        match jsLookup fs "text" with
        | none => ["input.text: Required"]
        | some (.str s) => if s = "" then ["input.text: text must be non-empty"] else []
        | some _ => ["input.text: Expected string"]
      let iss := tIss ++ optStrIssues fs "input.language" "language" ++
        optStrIssues fs "input.correlationId" "correlationId"
      if iss = [] then
        .ok (.text ((getOptStr fs "text").getD "") (getOptStr fs "language")
          (getOptStr fs "correlationId"))
      else .error iss
  | _ => .error ["input: Expected object"]

def parseAudioInner (j : Json) : Except (List String) Audio :=
  match j with
  | .obj fs =>
      let tyIss : List String :=
        match jsLookup fs "type" with
        | none => ["input.audio.type: Required"]
        | some (.str s) =>
            if s = "url" ∨ s = "base64" then [] else ["input.audio.type: Invalid enum value"]
        | some _ => ["input.audio.type: Invalid enum value"]
      let vIss : List String :=
        match jsLookup fs "value" with
        | none => ["input.audio.value: Required"]
        | some (.str s) =>
            if s = "" then ["input.audio.value: String must contain at least 1 character"] else []
        | some _ => ["input.audio.value: Expected string"]
      if tyIss ++ vIss = [] then
        .ok ⟨(if (getOptStr fs "type").getD "" = "url" then .url else .base64),
             (getOptStr fs "value").getD ""⟩
      else .error (tyIss ++ vIss)
  | _ => .error ["input.audio: Expected object"]

def parseAudioInput (j : Json) : Except (List String) PipelineInput :=
  match j with
  | .obj fs =>
      let aRes : Except (List String) Audio :=
        match jsLookup fs "audio" with
        | none => .error ["input.audio: Required"]
        | some aj => parseAudioInner aj
      let oIss := optStrIssues fs "input.filename" "filename" ++
        optStrIssues fs "input.language" "language" ++
        optStrIssues fs "input.hint" "hint" ++
        optStrIssues fs "input.correlationId" "correlationId"
      match aRes with
      | .ok a =>
          if oIss = [] then
            .ok (.audio a (getOptStr fs "filename") (getOptStr fs "language")
              (getOptStr fs "hint") (getOptStr fs "correlationId"))
          else .error oIss
      | .error e => .error (e ++ oIss)
  | _ => .error ["input: Expected object"]

/-- `z.union([TextInputSchema, AudioInputSchema])`: first success wins. -/
def parsePipelineInput (j : Json) : Except (List String) PipelineInput :=
  match parseTextInput j with
  | .ok i => .ok i
  | .error e1 =>
      match parseAudioInput j with
      | .ok i => .ok i
      | .error e2 => .error (e1 ++ e2)

def parseOptions (j : Json) : Except (List String) PipelineOptions :=
  match j with
  | .obj fs =>
      match jsLookup fs "provider" with
      | none => .ok ⟨none⟩
      | some (.str s) =>
          if s = "gemini" then .ok ⟨some .gemini⟩
          else if s = "openai" then .ok ⟨some .openai⟩
          else .error ["options.provider: Invalid enum value"]
      | some _ => .error ["options.provider: Invalid enum value"]
  | _ => .error ["options: Expected object"]

def parsePipelineBody (j : Json) : Except (List String) PipelineBody :=
  match j with
  | .obj fs =>
      let inRes : Except (List String) PipelineInput :=
        match jsLookup fs "input" with
        | none => .error ["input: Required"]
        | some ij => parsePipelineInput ij
      let optRes : Except (List String) (Option PipelineOptions) :=
        match jsLookup fs "options" with
        | none => .ok none
        | some oj => (parseOptions oj).map some
      match inRes, optRes with
      | .ok i, .ok o => .ok ⟨i, o⟩
      | .error e1, .error e2 => .error (e1 ++ e2)
      | .error e1, .ok _ => .error e1
      | .ok _, .error e2 => .error e2
  | _ => .error ["body: Expected object"]

/-- The full pipeline handler on a raw JSON body. -/
def handleRaw (svc : Services) (now : Nat) (env : Env) (raw : Json) :
    HttpResponse × CallLog :=
  match parsePipelineBody raw with
  | .error issues => (⟨400, .validationError "Invalid body" issues⟩, emptyLog)
  | .ok pb => handleParsed svc now env pb

/-- The supplied (or absent) correlation id of a parsed input. -/
def PipelineInput.corrF : PipelineInput → Option String
  | .text _ _ c => c
  | .audio _ _ _ _ c => c

/-- `correlationId ?? corr-<now>`: the id both branches resolve. -/
def resolvedCorr (now : Nat) (input : PipelineInput) : String :=
  (input.corrF).getD (genCorr now)

/-! ### Structural lemmas about the handler -/

lemma resolveStage1_log {svc : Services} {now : Nat} {inp : PipelineInput}
    {t l c : String} {log : CallLog}
    (h : resolveStage1 svc now inp = .ok (t, l, c, log)) :
    log.extractCalls = [] ∧ log.diagnoseCalls = [] := by
  cases inp with
  | text tx la co =>
      simp only [resolveStage1, emptyLog, Except.ok.injEq, Prod.mk.injEq] at h
      obtain ⟨-, -, -, h4⟩ := h
      simp [← h4]
  | audio a fn la hi co =>
      simp only [resolveStage1] at h
      split at h
      · exact absurd h (by simp)
      · split at h
        · exact absurd h (by simp)
        · simp only [Except.ok.injEq, Prod.mk.injEq] at h
          obtain ⟨-, -, -, h4⟩ := h
          simp [← h4]

lemma resolveStage1_corr {svc : Services} {now : Nat} {inp : PipelineInput}
    {t l c : String} {log : CallLog}
    (h : resolveStage1 svc now inp = .ok (t, l, c, log)) :
    c = resolvedCorr now inp := by
  cases inp with
  | text tx la co =>
      simp only [resolveStage1, Except.ok.injEq, Prod.mk.injEq] at h
      obtain ⟨-, -, h3, -⟩ := h
      simp [← h3, resolvedCorr, PipelineInput.corrF]
  | audio a fn la hi co =>
      simp only [resolveStage1] at h
      split at h
      · exact absurd h (by simp)
      · split at h
        · exact absurd h (by simp)
        · simp only [Except.ok.injEq, Prod.mk.injEq] at h
          obtain ⟨-, -, h3, -⟩ := h
          simp [← h3, resolvedCorr, PipelineInput.corrF]

lemma afterTranscript_transcribeCalls (svc : Services) (env : Env)
    (opts : Option PipelineOptions) (transcript lang corrId : String) (log : CallLog) :
    (afterTranscript svc env opts transcript lang corrId log).2.transcribeCalls =
      log.transcribeCalls := by
  unfold afterTranscript
  split
  · try dsimp only
    split
    · rfl
    · try dsimp only
      split <;> rfl
  · rfl

/-! ### Claim theorems: the pipeline orchestrator -/

/-- C1: whenever the pipeline resolves a language whose primary subtag is
outside the supported set, it answers HTTP 400 with
`ok:false, error:"unsupported language"` and the resolved correlation id,
and neither the extract service nor the diagnose service is invoked. -/
theorem pipeline_language_gate (svc : Services) (now : Nat) (env : Env)
    (pb : PipelineBody) (t lang corr : String) (log : CallLog)
    (h1 : resolveStage1 svc now pb.input = .ok (t, lang, corr, log))
    (h2 : SUPPORTED_LANGS.contains (primaryLang lang) = false) :
    handleParsed svc now env pb =
      (⟨400, .unsupportedLanguage "unsupported language" corr⟩, log) ∧
    log.extractCalls = [] ∧ log.diagnoseCalls = [] := by
  refine ⟨?_, resolveStage1_log h1⟩
  simp only [handleParsed, h1]
  unfold afterTranscript
  have hng : ¬ (SUPPORTED_LANGS.contains (primaryLang lang) = true) := by
    rw [h2]; simp
  rw [if_neg hng]

theorem pipeline_language_gate_witness :
    resolveStage1 ⟨fun _ => .error "stub", fun _ => .error "stub", fun _ => .error "stub"⟩ 0
        (PipelineInput.text "Bonjour" (some "fr-FR") (some "corr-9")) =
      .ok ("Bonjour", "fr-FR", "corr-9", emptyLog) ∧
    SUPPORTED_LANGS.contains (primaryLang "fr-FR") = false ∧
    handleParsed ⟨fun _ => .error "stub", fun _ => .error "stub", fun _ => .error "stub"⟩ 0
        ⟨none⟩ ⟨.text "Bonjour" (some "fr-FR") (some "corr-9"), none⟩ =
      (⟨400, .unsupportedLanguage "unsupported language" "corr-9"⟩, emptyLog) :=
  ⟨rfl, rfl,
    (pipeline_language_gate _ 0 ⟨none⟩ ⟨.text "Bonjour" (some "fr-FR") (some "corr-9"), none⟩
      "Bonjour" "fr-FR" "corr-9" emptyLog rfl rfl).1⟩

/-- C2: on a text-shaped request the transcribe service is never invoked,
and a success response's transcript equals `input.text` exactly. -/
theorem pipeline_text_branch (svc : Services) (now : Nat) (env : Env)
    (t : String) (lang corr : Option String) (opts : Option PipelineOptions) :
    (handleParsed svc now env ⟨.text t lang corr, opts⟩).2.transcribeCalls = [] ∧
    (handleParsed svc now env ⟨.text t lang corr, opts⟩).1.body.transcriptF =
      (if (handleParsed svc now env ⟨.text t lang corr, opts⟩).1.body.isSuccess
       then some t else none) := by
  have hh : handleParsed svc now env ⟨.text t lang corr, opts⟩ =
      afterTranscript svc env opts t (lang.getD "es-AR") (corr.getD (genCorr now)) emptyLog := by
    simp [handleParsed, resolveStage1]
  refine ⟨?_, ?_⟩
  · rw [hh, afterTranscript_transcribeCalls]; rfl
  · rw [hh]
    unfold afterTranscript
    split
    · try dsimp only
      split
      · simp [ResponseBody.transcriptF, ResponseBody.isSuccess]
      · try dsimp only
        split <;> simp [ResponseBody.transcriptF, ResponseBody.isSuccess]
    · simp [ResponseBody.transcriptF, ResponseBody.isSuccess]

/-- C4: when the transcribe adapter resolves with empty (falsy) text for an
audio-shaped request, the pipeline answers HTTP 500 with
`ok:false, step:"transcribe"`, and neither extract nor diagnose is invoked
(the call log records only the one transcribe call). -/
theorem pipeline_transcribe_empty (svc : Services) (now : Nat) (env : Env)
    (a : Audio) (fn lang hint corr : Option String) (opts : Option PipelineOptions)
    (tr : TranscribeResult)
    (h1 : svc.transcribe ⟨a, fn, lang, hint, corr⟩ = .ok tr)
    (h2 : tr.text = "") :
    handleParsed svc now env ⟨.audio a fn lang hint corr, opts⟩ =
      (⟨500, .transcribeError "Transcription has no text"⟩,
       ⟨[⟨a, fn, lang, hint, corr⟩], [], []⟩) := by
  simp [handleParsed, resolveStage1, h1, h2]

theorem pipeline_transcribe_empty_witness :
    Services.transcribe
        ⟨fun _ => .ok ⟨"", none, none⟩, fun _ => .error "stub", fun _ => .error "stub"⟩
        ⟨⟨.url, "http://x/a.mp3"⟩, none, none, none, some "corr-1"⟩ =
      .ok ⟨"", none, none⟩ ∧
    handleParsed
        ⟨fun _ => .ok ⟨"", none, none⟩, fun _ => .error "stub", fun _ => .error "stub"⟩ 0
        ⟨none⟩ ⟨.audio ⟨.url, "http://x/a.mp3"⟩ none none none (some "corr-1"), none⟩ =
      (⟨500, .transcribeError "Transcription has no text"⟩,
       ⟨[⟨⟨.url, "http://x/a.mp3"⟩, none, none, none, some "corr-1"⟩], [], []⟩) :=
  ⟨rfl, pipeline_transcribe_empty _ 0 ⟨none⟩ ⟨.url, "http://x/a.mp3"⟩
    none none none (some "corr-1") none ⟨"", none, none⟩ rfl rfl⟩

/-- C5: a body that fails validation against the PipelineRequest union gets
HTTP 400 with `ok:false, step:"validation"` and the structured issue list,
and no external service is invoked. -/
theorem pipeline_validation_failure (svc : Services) (now : Nat) (env : Env)
    (raw : Json) (issues : List String)
    (h : parsePipelineBody raw = .error issues) :
    handleRaw svc now env raw =
      (⟨400, .validationError "Invalid body" issues⟩, emptyLog) := by
  simp [handleRaw, h]

theorem pipeline_validation_failure_witness :
    parsePipelineBody (.obj [("foo", .str "bar")]) = .error ["input: Required"] ∧
    handleRaw ⟨fun _ => .error "stub", fun _ => .error "stub", fun _ => .error "stub"⟩ 0
        ⟨none⟩ (.obj [("foo", .str "bar")]) =
      (⟨400, .validationError "Invalid body" ["input: Required"]⟩, emptyLog) :=
  ⟨rfl, pipeline_validation_failure _ 0 ⟨none⟩ _ _ rfl⟩

/-- C3 (counterexample): with a caller-supplied language `en-US` and a
transcribe adapter that detects `es`, the pipeline resolves `en-US` — the
caller-supplied tag, not the detected one — as witnessed by the language the
extract service is invoked with. -/
theorem pipeline_lang_precedence_counterexample :
    (handleParsed
        ⟨fun _ => .ok ⟨"hola doctor", some "es", none⟩,
         fun _ => .error "stub", fun _ => .error "stub"⟩ 0 ⟨none⟩
        ⟨.audio ⟨.url, "http://x/a.mp3"⟩ none (some "en-US") none (some "corr-9"),
         none⟩).2.extractCalls =
      [⟨"hola doctor", "en-US", "corr-9"⟩] ∧
    ("en-US" : String) ≠ "es" :=
  ⟨rfl, by decide⟩

/-- C3 (amended): on a successful non-empty transcription, the resolved
language is the caller-supplied language when present, otherwise the
adapter's detected language, otherwise `"es-AR"` — caller-supplied takes
precedence over detected (`input.language ?? tr.language ?? "es-AR"`). -/
theorem pipeline_lang_precedence (svc : Services) (now : Nat) (a : Audio)
    (fn lang hint corr : Option String) (tr : TranscribeResult)
    (h1 : svc.transcribe ⟨a, fn, lang, hint, corr⟩ = .ok tr)
    (h2 : tr.text ≠ "") :
    resolveStage1 svc now (.audio a fn lang hint corr) =
      .ok (tr.text, lang.getD (tr.language.getD "es-AR"), corr.getD (genCorr now),
           ⟨[⟨a, fn, lang, hint, corr⟩], [], []⟩) := by
  simp [resolveStage1, h1, h2]

theorem pipeline_lang_precedence_witness :
    Services.transcribe
        ⟨fun _ => .ok ⟨"hola", some "es", none⟩, fun _ => .error "stub",
         fun _ => .error "stub"⟩
        ⟨⟨.url, "http://x/a.mp3"⟩, none, none, none, none⟩ =
      .ok ⟨"hola", some "es", none⟩ ∧
    ("hola" : String) ≠ "" ∧
    resolveStage1
        ⟨fun _ => .ok ⟨"hola", some "es", none⟩, fun _ => .error "stub",
         fun _ => .error "stub"⟩ 0
        (.audio ⟨.url, "http://x/a.mp3"⟩ none none none none) =
      .ok ("hola", "es", "corr-0",
           ⟨[⟨⟨.url, "http://x/a.mp3"⟩, none, none, none, none⟩], [], []⟩) :=
  ⟨rfl, by decide,
    pipeline_lang_precedence _ 0 ⟨.url, "http://x/a.mp3"⟩ none none none none
      ⟨"hola", some "es", none⟩ rfl (by decide)⟩

/-! ### Correlation ids on responses (C6) -/

lemma resolveStage1_error_body {svc : Services} {now : Nat} {inp : PipelineInput}
    {rl : HttpResponse × CallLog}
    (h : resolveStage1 svc now inp = .error rl) :
    rl.1.body.correlationIdF = none ∧ rl.1.body.isSuccess = false ∧
    rl.1.body.isUnsupportedLanguage = false := by
  cases inp with
  | text _ _ _ => simp [resolveStage1] at h
  | audio a fn la hi co =>
      simp only [resolveStage1] at h
      split at h
      · simp only [Except.error.injEq] at h
        rw [← h]
        simp [ResponseBody.correlationIdF, ResponseBody.isSuccess,
          ResponseBody.isUnsupportedLanguage]
      · split at h
        · simp only [Except.error.injEq] at h
          rw [← h]
          simp [ResponseBody.correlationIdF, ResponseBody.isSuccess,
            ResponseBody.isUnsupportedLanguage]
        · exact absurd h (by simp)

lemma afterTranscript_corrF (svc : Services) (env : Env)
    (opts : Option PipelineOptions) (transcript lang corrId : String) (log : CallLog) :
    (afterTranscript svc env opts transcript lang corrId log).1.body.correlationIdF =
      (if (afterTranscript svc env opts transcript lang corrId log).1.body.isSuccess ||
          (afterTranscript svc env opts transcript lang corrId log).1.body.isUnsupportedLanguage
       then some corrId else none) := by
  unfold afterTranscript
  split
  · try dsimp only
    split
    · simp [ResponseBody.correlationIdF, ResponseBody.isSuccess,
        ResponseBody.isUnsupportedLanguage]
    · try dsimp only
      split <;>
        simp [ResponseBody.correlationIdF, ResponseBody.isSuccess,
          ResponseBody.isUnsupportedLanguage]
  · simp [ResponseBody.correlationIdF, ResponseBody.isSuccess,
      ResponseBody.isUnsupportedLanguage]

/-- C6 (amended): a pipeline response carries the resolved correlation id
exactly when it is the unsupported-language response or the success
response; the validation-failure, transcribe-failure and `step:"unknown"`
responses include no correlation id. -/
theorem correlation_id_responses (svc : Services) (now : Nat) (env : Env) (raw : Json) :
    (handleRaw svc now env raw).1.body.correlationIdF =
      (match parsePipelineBody raw with
       | .error _ => none
       | .ok pb =>
           if (handleRaw svc now env raw).1.body.isSuccess ||
              (handleRaw svc now env raw).1.body.isUnsupportedLanguage
           then some (resolvedCorr now pb.input) else none) := by
  cases hp : parsePipelineBody raw with
  | error iss =>
      simp [handleRaw, hp, ResponseBody.correlationIdF]
  | ok pb =>
      simp only [handleRaw, hp]
      cases hr : resolveStage1 svc now pb.input with
      | error rl =>
          simp only [handleParsed, hr]
          obtain ⟨h1, h2, h3⟩ := resolveStage1_error_body hr
          simp [h1, h2, h3]
      | ok quad =>
          obtain ⟨t, l, c, log⟩ := quad
          have hc := resolveStage1_corr hr
          simp only [handleParsed, hr]
          rw [afterTranscript_corrF, hc]

/-! ### Provider selection (C10) -/

/-- JS `||` on a possibly-absent string: the empty string is falsy. -/
def jsOr (o : Option String) (d : String) : String :=
  match o with
  | some s => if s = "" then d else s
  | none => d

def lowerStr (s : String) : String := ⟨s.data.map Char.toLower⟩

inductive Backend where
  | gemini : Backend
  | openai : Backend
deriving DecidableEq

/-- `(process.env.PROVIDER || "gemini").toLowerCase()` dispatch of
`generateDiagnosisJSON`. -/
def selectBackend (provider : Option String) : Backend :=
  if lowerStr (jsOr provider "gemini") = "openai" then .openai else .gemini

/-- The backend `diagnoseService` actually calls: a function of the
environment only (the request carries no provider field at all). -/
def diagnoseBackend (env : Env) : Backend := selectBackend env.PROVIDER

lemma afterTranscript_opts (svc : Services) (env : Env)
    (o₁ o₂ : Option PipelineOptions) (t l c : String) (log : CallLog) :
    (afterTranscript svc env o₁ t l c log).2 = (afterTranscript svc env o₂ t l c log).2 ∧
    (afterTranscript svc env o₁ t l c log).1.status =
      (afterTranscript svc env o₂ t l c log).1.status ∧
    (afterTranscript svc env o₁ t l c log).1.body.clearProvider =
      (afterTranscript svc env o₂ t l c log).1.body.clearProvider := by
  unfold afterTranscript
  split
  · cases hex : svc.extract ⟨t, l, c⟩ with
    | error m => simp [hex, ResponseBody.clearProvider]
    | ok ext =>
        cases hd : svc.diagnose ⟨⟨ext.patient, ext.symptoms.getD [], ext.riskFlags.getD [],
            ext.onsetDays, ext.notes⟩, l, c⟩ with
        | error m => simp [hex, hd, ResponseBody.clearProvider]
        | ok d => simp [hex, hd, ResponseBody.clearProvider]
  · simp [ResponseBody.clearProvider]

lemma afterTranscript_providerF (svc : Services) (env : Env)
    (opts : Option PipelineOptions) (t l c : String) (log : CallLog) :
    (afterTranscript svc env opts t l c log).1.body.providerF =
      (if (afterTranscript svc env opts t l c log).1.body.isSuccess
       then some (resolveProvider opts env) else none) := by
  unfold afterTranscript
  split
  · try dsimp only
    split
    · simp [ResponseBody.providerF, ResponseBody.isSuccess]
    · try dsimp only
      split <;> simp [ResponseBody.providerF, ResponseBody.isSuccess]
  · simp [ResponseBody.providerF, ResponseBody.isSuccess]

/-- C10: two pipeline requests that differ only in `options.provider` make
exactly the same external-service calls (so, for a fixed environment, the
same diagnose backend is invoked — `diagnoseBackend` reads only
`process.env.PROVIDER`, defaulting to gemini), while the caller-supplied
override is merely echoed in the success response's `provider` field. -/
theorem provider_echo_independent (svc : Services) (now : Nat) (env : Env)
    (inp : PipelineInput) (o₁ o₂ : Option PipelineOptions) :
    (handleParsed svc now env ⟨inp, o₁⟩).2 = (handleParsed svc now env ⟨inp, o₂⟩).2 ∧
    (handleParsed svc now env ⟨inp, o₁⟩).1.status =
      (handleParsed svc now env ⟨inp, o₂⟩).1.status ∧
    (handleParsed svc now env ⟨inp, o₁⟩).1.body.clearProvider =
      (handleParsed svc now env ⟨inp, o₂⟩).1.body.clearProvider ∧
    (handleParsed svc now env ⟨inp, o₁⟩).1.body.providerF =
      (if (handleParsed svc now env ⟨inp, o₁⟩).1.body.isSuccess
       then some (resolveProvider o₁ env) else none) ∧
    (∀ p : ProviderOpt, resolveProvider (some ⟨some p⟩) env = p.name) ∧
    diagnoseBackend ⟨none⟩ = Backend.gemini := by
  cases hr : resolveStage1 svc now inp with
  | error rl =>
      obtain ⟨-, h2, -⟩ := resolveStage1_error_body hr
      have hpf : rl.1.body.providerF = none := by
        cases hb : rl.1.body <;>
          simp_all [ResponseBody.isSuccess, ResponseBody.providerF]
      refine ⟨?_, ?_, ?_, ?_, fun p => rfl, rfl⟩ <;>
        (simp only [handleParsed, hr]
         try (first | rfl | (rw [hpf, h2]; simp)))
  | ok quad =>
      obtain ⟨t, l, c, log⟩ := quad
      obtain ⟨ha, hb, hc'⟩ := afterTranscript_opts svc env o₁ o₂ t l c log
      refine ⟨?_, ?_, ?_, ?_, fun p => rfl, rfl⟩ <;> simp only [handleParsed, hr]
      · exact ha
      · exact hb
      · exact hc'
      · exact afterTranscript_providerF svc env o₁ t l c log

/-! ### Extract stage: `normalizeExtractionData` and the Ajv validation
of `dataSchema` (`allErrors`, `strict:false`, `coerceTypes:true`,
`useDefaults:true`, `removeAdditional:"all"`). -/

/-- JS truthiness of a JSON value (an absent key is falsy at use sites). -/
def jsTruthy : Json → Bool
  | .null => false
  | .bool b => b
  | .num n => n != 0
  | .str s => s != ""
  | .arr _ => true
  | .obj _ => true

def truthyAt (fs : List (String × Json)) (k : String) : Bool :=
  ((jsLookup fs k).map jsTruthy).getD false

/-- JS property assignment: overwrite in place, else append. -/
def jsSet (fs : List (String × Json)) (k : String) (v : Json) : List (String × Json) :=
  match fs with
  | [] => [(k, v)]
  | (k', v') :: rest => if k' = k then (k', v) :: rest else (k', v') :: jsSet rest k v

/-- `if (out[src] && !out[dst]) out[dst] = out[src]`. -/
def copyKey (fs : List (String × Json)) (src dst : String) : List (String × Json) :=
  match jsLookup fs src with
  | some v => if jsTruthy v && !(truthyAt fs dst) then jsSet fs dst v else fs
  | none => fs

/-- `Number(s)` on a string, restricted to integer numerals: whitespace-only
is 0, a (signed) decimal integer is its value, anything else is NaN
(`none`).  Fractional and exotic numerals are outside this model's scope. -/
def jsNumber (s : String) : Option Int :=
  let t := s.data.dropWhile Char.isWhitespace
  let t := (t.reverse.dropWhile Char.isWhitespace).reverse
  match t with
  | [] => some 0
  | '-' :: ds =>
      if ds ≠ [] ∧ ds.all Char.isDigit then
        some (-(Int.ofNat (ds.foldl (fun n c => n * 10 + (c.toNat - 48)) 0)))
      else none
  | '+' :: ds =>
      if ds ≠ [] ∧ ds.all Char.isDigit then
        some (Int.ofNat (ds.foldl (fun n c => n * 10 + (c.toNat - 48)) 0))
      else none
  | ds =>
      if ds.all Char.isDigit then
        some (Int.ofNat (ds.foldl (fun n c => n * 10 + (c.toNat - 48)) 0))
      else none

/-- `typeof v === "object" && v !== null` (arrays included). -/
def isObjectType : Json → Bool
  | .obj _ => true
  | .arr _ => true
  | _ => false

/-- `{...v}`: spreading an array yields an object with index keys. -/
def spreadToObj : Json → List (String × Json)
  | .obj fs => fs
  | .arr xs => (xs.enum.map fun (i, x) => (toString i, x))
  | _ => []

/-- The `out.patient` block of `normalizeExtractionData`. -/
def normalizePatientStep (fs : List (String × Json)) : List (String × Json) :=
  match jsLookup fs "patient" with
  | some pv =>
      if jsTruthy pv && isObjectType pv then
        let pfs := spreadToObj pv
        let pfs := copyKey pfs "genero" "sex"
        let pfs := copyKey pfs "sexo" "sex"
        let pfs :=
          match jsLookup pfs "age" with
          | some (.str s) =>
              match jsNumber s with
              | some n => jsSet pfs "age" (.num n)
              | none => pfs
          | _ => pfs
        jsSet fs "patient" (.obj pfs)
      else fs
  | none => fs

/-- `if (typeof out[k] === "string") out[k] = [out[k]]`. -/
def wrapIfString (fs : List (String × Json)) (k : String) : List (String × Json) :=
  match jsLookup fs k with
  | some (.str s) => jsSet fs k (.arr [.str s])
  | _ => fs

def normalizeFields (fs0 : List (String × Json)) : List (String × Json) :=
  let fs := copyKey fs0 "sintomas" "symptoms"
  let fs := copyKey fs "riesgos" "riskFlags"
  let fs := copyKey fs "observaciones" "notes"
  let fs := copyKey fs "paciente" "patient"
  let fs := normalizePatientStep fs
  let fs := wrapIfString fs "symptoms"
  wrapIfString fs "riskFlags"

def normalizeExtractionData : Json → Json
  | .obj fs => .obj (normalizeFields fs)
  | .arr xs => .obj (normalizeFields (spreadToObj (.arr xs)))
  | j => j

/-- Ajv `coerceTypes` to integer: strings must be integral numerals,
booleans map to 0/1, null to 0; arrays and objects never coerce. -/
def coerceInt : Json → Option Int
  | .num n => some n
  | .str s => if s.data ≠ [] ∧ s.data.all Char.isDigit then
        some (Int.ofNat (s.data.foldl (fun n c => n * 10 + (c.toNat - 48)) 0))
      else if s.data.headD ' ' = '-' ∧ s.data.tail ≠ [] ∧ s.data.tail.all Char.isDigit then
        some (-(Int.ofNat (s.data.tail.foldl (fun n c => n * 10 + (c.toNat - 48)) 0)))
      else none
  | .bool b => some (if b then 1 else 0)
  | .null => some 0
  | _ => none

/-- Ajv `coerceTypes` to string: numbers and booleans coerce. -/
def coerceStr : Json → Option String
  | .str s => some s
  | .num n => some (toString n)
  | .bool b => some (if b then "true" else "false")
  | _ => none

def coerceStrList : List Json → Option (List String)
  | [] => some []
  | x :: xs =>
      match coerceStr x, coerceStrList xs with
      | some s, some ss => some (s :: ss)
      | _, _ => none

/-- One string-array property (`symptoms`/`riskFlags`): plain `coerceTypes:
true` never wraps a scalar into an array. -/
def validateStrArray (path : String) : Json → List String × Option (List String)
  | .arr xs =>
      match coerceStrList xs with
      | some ss => ([], some ss)
      | none => ([path ++ " items must be string"], none)
  | _ => ([path ++ " must be array"], none)

/-- The nested `patient` schema (`age` 0..130, `sex` enum M/F/X,
`additionalProperties:false` — undeclared members are removed). -/
def validatePatient : Json → List String × Option Patient
  | .obj pfs =>
      let ageR : List String × Option Int :=
        match jsLookup pfs "age" with
        | none => ([], none)
        | some v =>
            match coerceInt v with
            | some n =>
                if 0 ≤ n ∧ n ≤ 130 then ([], some n)
                else (["/patient/age must be between 0 and 130"], none)
            | none => (["/patient/age must be integer"], none)
      let sexR : List String × Option Sex :=
        match jsLookup pfs "sex" with
        | none => ([], none)
        | some v =>
            match coerceStr v with
            | some s =>
                if s = "M" then ([], some .M)
                else if s = "F" then ([], some .F)
                else if s = "X" then ([], some .X)
                else (["/patient/sex must be equal to one of the allowed values"], none)
            | none => (["/patient/sex must be string"], none)
      (ageR.1 ++ sexR.1, some ⟨ageR.2, sexR.2⟩)
  | _ => (["/patient must be object"], none)

/-- Validation of the declared properties, given their looked-up values.
`removeAdditional:"all"` means nothing else is consulted; `useDefaults`
fills `symptoms`/`riskFlags` with `[]` when absent. -/
def validateFields (pv sv ov rv nv : Option Json) :
    List String × ExtractionResponseData :=
  let pR : List String × Option Patient :=
    match pv with
    | none => ([], none)
    | some v => validatePatient v
  let sR : List String × Option (List String) :=
    match sv with
    | none => ([], some [])
    | some v => validateStrArray "/symptoms" v
  let oR : List String × Option Int :=
    match ov with
    | none => ([], none)
    | some v =>
        match coerceInt v with
        | some n => if 0 ≤ n then ([], some n) else (["/onsetDays must be >= 0"], none)
        | none => (["/onsetDays must be integer"], none)
  let rR : List String × Option (List String) :=
    match rv with
    | none => ([], some [])
    | some v => validateStrArray "/riskFlags" v
  let nR : List String × Option String :=
    match nv with
    | none => ([], none)
    | some v =>
        match coerceStr v with
        | some s => ([], some s)
        | none => (["/notes must be string"], none)
  (pR.1 ++ sR.1 ++ oR.1 ++ rR.1 ++ nR.1, ⟨pR.2, sR.2, oR.2, rR.2, nR.2⟩)

/-- `validateData` (the compiled Ajv validator for `dataSchema`): returns
the mutated/typed data, or the full violation list. -/
def validateData : Json → Except (List String) ExtractionResponseData
  | .obj fs =>
      let r := validateFields (jsLookup fs "patient") (jsLookup fs "symptoms")
        (jsLookup fs "onsetDays") (jsLookup fs "riskFlags") (jsLookup fs "notes")
      if r.1 = [] then .ok r.2 else .error r.1
  | _ => .error ["data must be object"]

/-- The extract stage's post-LLM step: normalize, validate, then spread
`{symptoms: [], riskFlags: [], ...data}`. -/
def extractStep (j : Json) : Except (List String) ExtractionResponseData :=
  match validateData (normalizeExtractionData j) with
  | .error e => .error e
  | .ok d => .ok { d with symptoms := some (d.symptoms.getD []),
                          riskFlags := some (d.riskFlags.getD []) }

def declaredTopKeys : List String := ["patient", "symptoms", "onsetDays", "riskFlags", "notes"]

lemma jsLookup_append_ne (fs : List (String × Json)) (k : String) (v : Json)
    (k' : String) (h : k ≠ k') :
    jsLookup (fs ++ [(k, v)]) k' = jsLookup fs k' := by
  induction fs with
  | nil => simp [jsLookup, h]
  | cons p rest ih =>
      obtain ⟨a, b⟩ := p
      simp only [List.cons_append, jsLookup]
      split
      · rfl
      · exact ih

/-- C7 (counterexample): a payload carrying the undeclared field `foo`
passes validation — `removeAdditional:"all"` strips it — instead of failing
as the claim requires. -/
theorem extract_additional_counterexample :
    validateData (.obj [("symptoms", .arr [.str "tos"]), ("foo", .str "bar")]) =
      .ok ⟨none, some ["tos"], none, some [], none⟩ ∧
    declaredTopKeys.contains "foo" = false :=
  ⟨rfl, rfl⟩

/-- C7 (amended): with `removeAdditional:"all"` the validator silently
ignores undeclared fields: adding any undeclared field to a payload leaves
the validation outcome unchanged (same result, same violation list) —
undeclared fields are removed, never grounds for failure. -/
theorem extract_additional_removed (fs : List (String × Json)) (k : String) (v : Json)
    (h : declaredTopKeys.contains k = false) :
    validateData (.obj (fs ++ [(k, v)])) = validateData (.obj fs) := by
  have h1 : k ≠ "patient" := fun he => by
    subst he; exact absurd h (by decide)
  have h2 : k ≠ "symptoms" := fun he => by
    subst he; exact absurd h (by decide)
  have h3 : k ≠ "onsetDays" := fun he => by
    subst he; exact absurd h (by decide)
  have h4 : k ≠ "riskFlags" := fun he => by
    subst he; exact absurd h (by decide)
  have h5 : k ≠ "notes" := fun he => by
    subst he; exact absurd h (by decide)
  simp only [validateData]
  rw [jsLookup_append_ne fs k v "patient" h1, jsLookup_append_ne fs k v "symptoms" h2,
    jsLookup_append_ne fs k v "onsetDays" h3, jsLookup_append_ne fs k v "riskFlags" h4,
    jsLookup_append_ne fs k v "notes" h5]

theorem extract_additional_removed_witness :
    declaredTopKeys.contains "foo" = false ∧
    validateData (.obj ([("symptoms", .arr [.str "a"])] ++ [("foo", .str "bar")])) =
      validateData (.obj [("symptoms", .arr [.str "a"])]) :=
  ⟨rfl, extract_additional_removed [("symptoms", .arr [.str "a"])] "foo" (.str "bar") rfl⟩

/-- C8 (counterexample): with an empty bare string under the synonym key
`sintomas`, the normalizer's truthiness guard skips the copy entirely and
`useDefaults` fills `symptoms` with `[]`, whereas the canonical payload
keeps `[""]` — the round trip fails on empty strings. -/
theorem normalizer_roundtrip_counterexample :
    extractStep (.obj [("sintomas", .str "")]) =
      .ok ⟨none, some [], none, some [], none⟩ ∧
    extractStep (.obj [("symptoms", .arr [.str ""])]) =
      .ok ⟨none, some [""], none, some [], none⟩ ∧
    (⟨none, some [], none, some [], none⟩ : ExtractionResponseData) ≠
      ⟨none, some [""], none, some [], none⟩ :=
  ⟨rfl, rfl, by decide⟩

/-- C8 (amended): for non-empty values, a payload that uses only the
synonym keys (`sintomas`, `riesgos`, `observaciones`, `paciente`/`genero`)
with bare strings where string arrays are expected normalizes and validates
to exactly the result of the canonical-keyed payload with arrays. -/
theorem normalizer_roundtrip (s r n g : String)
    (hs : s ≠ "") (hr : r ≠ "") (hn : n ≠ "") (hg : g ≠ "") :
    extractStep (.obj [("sintomas", .str s), ("riesgos", .str r),
      ("observaciones", .str n), ("paciente", .obj [("genero", .str g)])]) =
    extractStep (.obj [("symptoms", .arr [.str s]), ("riskFlags", .arr [.str r]),
      ("notes", .str n), ("patient", .obj [("sex", .str g)])]) := by
  have hs' : (s != "") = true := bne_iff_ne.mpr hs
  have hr' : (r != "") = true := bne_iff_ne.mpr hr
  have hn' : (n != "") = true := bne_iff_ne.mpr hn
  have hg' : (g != "") = true := bne_iff_ne.mpr hg
  simp [extractStep, normalizeExtractionData, normalizeFields, copyKey, jsLookup,
    jsSet, jsTruthy, truthyAt, normalizePatientStep, wrapIfString, isObjectType,
    spreadToObj, validateData, validateFields, validatePatient, validateStrArray,
    coerceStrList, coerceStr, hs', hr', hn', hg']

theorem normalizer_roundtrip_witness :
    ("dolor" : String) ≠ "" ∧ ("fiebre" : String) ≠ "" ∧ ("nota" : String) ≠ "" ∧
    ("M" : String) ≠ "" ∧
    extractStep (.obj [("sintomas", .str "dolor"), ("riesgos", .str "fiebre"),
      ("observaciones", .str "nota"), ("paciente", .obj [("genero", .str "M")])]) =
    extractStep (.obj [("symptoms", .arr [.str "dolor"]),
      ("riskFlags", .arr [.str "fiebre"]), ("notes", .str "nota"),
      ("patient", .obj [("sex", .str "M")])]) :=
  ⟨by decide, by decide, by decide, by decide,
    normalizer_roundtrip "dolor" "fiebre" "nota" "M"
      (by decide) (by decide) (by decide) (by decide)⟩

/-! ### Diagnose stage: the JSON parse/repair step.

`JSON.parse` is modelled by a fuelled recursive-descent parser over
character lists (whitespace is `' '`, `'\t'`, `'\r'`, `'\n'`; numbers are
integer numerals; string escapes cover the single-character escapes, not
`\u`), and the repair `raw.replace(/(three backticks)json|(three
backticks)/g, "").trim()` by a left-to-right single-pass scan plus a
whitespace trim. -/

def wsChar (c : Char) : Bool := c.isWhitespace

/-- `String.prototype.trim`: drop whitespace at both ends. -/
def trimChars (cs : List Char) : List Char :=
  ((cs.dropWhile wsChar).reverse.dropWhile wsChar).reverse

def digitsToNat (ds : List Char) : Nat :=
  ds.foldl (fun n c => n * 10 + (c.toNat - 48)) 0

def unescapeChar (c : Char) : Option Char :=
  if c = '"' then some '"'
  else if c = '\\' then some '\\'
  else if c = '/' then some '/'
  else if c = 'n' then some '\n'
  else if c = 't' then some '\t'
  else if c = 'r' then some '\r'
  else if c = 'b' then some (Char.ofNat 8)
  else if c = 'f' then some (Char.ofNat 12)
  else none

/-- Scan a JSON string body (after the opening quote) up to the closing
quote, applying escapes. -/
def parseStringChars : List Char → Option (List Char × List Char)
  | [] => none
  | '"' :: rest => some ([], rest)
  | '\\' :: e :: rest =>
      match unescapeChar e with
      | some d =>
          match parseStringChars rest with
          | some (s, r) => some (d :: s, r)
          | none => none
      | none => none
  | c :: rest =>
      if c.toNat < 32 then none
      else
        match parseStringChars rest with
        | some (s, r) => some (c :: s, r)
        | none => none

/-- Parser modes: a single value, the members of an object (after `{`, at
least one member), or the elements of an array (after `[`, at least one
element).  A single fuelled function keeps the recursion structural. -/
inductive PK where
  | value : PK
  | members : PK
  | elems : PK

def parseP : Nat → PK → List Char → Option (Json × List Char)
  | 0, _, _ => none
  | fuel+1, .value, cs =>
      match cs.dropWhile wsChar with
      | [] => none
      | c :: rest =>
          if c = '\x7b' then
            match rest.dropWhile wsChar with
            | '\x7d' :: r => some (.obj [], r)
            | _ =>
                match parseP fuel .members rest with
                | some (v, r) => some (v, r)
                | none => none
          else if c = '[' then
            match rest.dropWhile wsChar with
            | ']' :: r => some (.arr [], r)
            | _ =>
                match parseP fuel .elems rest with
                | some (v, r) => some (v, r)
                | none => none
          else if c = '"' then
            match parseStringChars rest with
            | some (s, r) => some (.str ⟨s⟩, r)
            | none => none
          else if c = 't' then
            match rest with
            | 'r' :: 'u' :: 'e' :: r => some (.bool true, r)
            | _ => none
          else if c = 'f' then
            match rest with
            | 'a' :: 'l' :: 's' :: 'e' :: r => some (.bool false, r)
            | _ => none
          else if c = 'n' then
            match rest with
            | 'u' :: 'l' :: 'l' :: r => some (.null, r)
            | _ => none
          else if c = '-' then
            match rest.takeWhile Char.isDigit with
            | [] => none
            | ds => some (.num (-(Int.ofNat (digitsToNat ds))), rest.dropWhile Char.isDigit)
          else if c.isDigit then
            some (.num (Int.ofNat (digitsToNat ((c :: rest).takeWhile Char.isDigit))),
              (c :: rest).dropWhile Char.isDigit)
          else none
  | fuel+1, .members, cs =>
      match cs.dropWhile wsChar with
      | '"' :: rest =>
          match parseStringChars rest with
          | some (k, r1) =>
              match r1.dropWhile wsChar with
              | ':' :: r2 =>
                  match parseP fuel .value r2 with
                  | some (v, r3) =>
                      match r3.dropWhile wsChar with
                      | ',' :: r4 =>
                          match parseP fuel .members r4 with
                          | some (.obj ms, r) => some (.obj ((⟨k⟩, v) :: ms), r)
                          | _ => none
                      | '\x7d' :: r4 => some (.obj [(⟨k⟩, v)], r4)
                      | _ => none
                  | none => none
              | _ => none
          | none => none
      | _ => none
  | fuel+1, .elems, cs =>
      match parseP fuel .value cs with
      | some (v, r1) =>
          match r1.dropWhile wsChar with
          | ',' :: r2 =>
              match parseP fuel .elems r2 with
              | some (.arr vs, r) => some (.arr (v :: vs), r)
              | _ => none
          | ']' :: r2 => some (.arr [v], r2)
          | _ => none
      | none => none

/-- `JSON.parse`: parse one value, allowing surrounding whitespace only. -/
def jsonParse (cs : List Char) : Except Unit Json :=
  match parseP ((trimChars cs).length + 1) .value (trimChars cs) with
  | some (v, rest) => if rest.dropWhile wsChar = [] then .ok v else .error ()
  | none => .error ()

/-- `raw.replace(/(3 backticks)json|(3 backticks)/g, "")`: single
left-to-right pass, longest alternative first at each position. -/
def stripFences : List Char → List Char
  | '\x60' :: '\x60' :: '\x60' :: 'j' :: 's' :: 'o' :: 'n' :: rest => stripFences rest
  | '\x60' :: '\x60' :: '\x60' :: rest => stripFences rest
  | c :: rest => c :: stripFences rest
  | [] => []

/-- The diagnose service's parse step: direct parse, then on failure strip
fences, trim and re-parse exactly once (a second failure propagates). -/
def diagParseStep (raw : List Char) : Except Unit Json :=
  match jsonParse raw with
  | .ok j => .ok j
  | .error _ => jsonParse (trimChars (stripFences raw))

/-- Whether three consecutive backticks occur anywhere. -/
def hasTriple : List Char → Bool
  | a :: b :: c :: rest =>
      (a == '\x60' && b == '\x60' && c == '\x60') || hasTriple (b :: c :: rest)
  | _ => false

def fencePre : List Char := ['\x60', '\x60', '\x60', 'j', 's', 'o', 'n', '\n']

def fenceSuf : List Char := ['\n', '\x60', '\x60', '\x60']

/-- Wrap a text in a markdown code fence. -/
def wrapFence (t : List Char) : List Char := fencePre ++ t ++ fenceSuf

/-- C6 (counterexample): an audio request that supplies `correlationId
"corr-1"` but whose transcription comes back empty gets the
`step:"transcribe"` error response, which carries no correlation id. -/
theorem correlation_id_counterexample :
    (handleParsed
        ⟨fun _ => .ok ⟨"", none, none⟩, fun _ => .error "stub", fun _ => .error "stub"⟩
        0 ⟨none⟩
        ⟨.audio ⟨.url, "http://x/a.mp3"⟩ none none none (some "corr-1"), none⟩).1 =
      ⟨500, .transcribeError "Transcription has no text"⟩ ∧
    ResponseBody.correlationIdF (.transcribeError "Transcription has no text") = none ∧
    PipelineInput.corrF (.audio ⟨.url, "http://x/a.mp3"⟩ none none none (some "corr-1")) =
      some "corr-1" :=
  ⟨rfl, rfl, rfl⟩

/-! ### Whitespace-trim lemmas -/

lemma dropWhile_ne_head {α : Type} {p : α → Bool} {l : List α} {a : α} {r : List α}
    (h : l.dropWhile p = a :: r) : p a = false := by
  induction l with
  | nil => simp [List.dropWhile] at h
  | cons b l ih =>
      rw [List.dropWhile_cons] at h
      split at h
      · exact ih h
      · rename_i hb
        injection h with h1 h2
        subst h1
        simpa using hb

lemma dropWhile_idem {α : Type} (p : α → Bool) (l : List α) :
    (l.dropWhile p).dropWhile p = l.dropWhile p := by
  cases h : l.dropWhile p with
  | nil => simp
  | cons a r => rw [List.dropWhile_cons_of_neg (by simp [dropWhile_ne_head h])]

lemma trimChars_no_leading (l : List Char) :
    (trimChars l).dropWhile wsChar = trimChars l := by
  unfold trimChars
  cases hA : l.dropWhile wsChar with
  | nil => simp
  | cons a A' =>
      have ha : wsChar a = false := dropWhile_ne_head hA
      rw [List.reverse_cons, List.dropWhile_append]
      split
      · simp [ha]
      · simp [List.reverse_append, ha]

lemma trimChars_idem (l : List Char) : trimChars (trimChars l) = trimChars l := by
  have h1 := trimChars_no_leading l
  show (((trimChars l).dropWhile wsChar).reverse.dropWhile wsChar).reverse = trimChars l
  rw [h1]
  show ((((l.dropWhile wsChar).reverse.dropWhile wsChar).reverse).reverse.dropWhile
      wsChar).reverse = _
  rw [List.reverse_reverse, dropWhile_idem]
  rfl

lemma jsonParse_trimChars (l : List Char) : jsonParse (trimChars l) = jsonParse l := by
  unfold jsonParse
  rw [trimChars_idem]

lemma trimChars_wrapFence (t : List Char) : trimChars (wrapFence t) = wrapFence t := by
  have h1 : (wrapFence t).dropWhile wsChar = wrapFence t := by
    rw [show wrapFence t =
      '\x60' :: (['\x60', '\x60', 'j', 's', 'o', 'n', '\n'] ++ (t ++ fenceSuf)) from rfl]
    rw [List.dropWhile_cons_of_neg (by decide)]
  have hrev : (wrapFence t).reverse =
      '\x60' :: (['\x60', '\x60', '\n'] ++ (t.reverse ++ fencePre.reverse)) := by
    show (fencePre ++ (t ++ fenceSuf)).reverse = _
    rw [List.reverse_append, List.reverse_append, List.append_assoc]
    rfl
  have h2 : (wrapFence t).reverse.dropWhile wsChar = (wrapFence t).reverse := by
    rw [hrev, List.dropWhile_cons_of_neg (by decide)]
  show (((wrapFence t).dropWhile wsChar).reverse.dropWhile wsChar).reverse = wrapFence t
  rw [h1, h2, List.reverse_reverse]

/-! ### Fence-stripping lemmas -/

lemma stripFences_cons_ne (c : Char) (l : List Char) (h : c ≠ '\x60') :
    stripFences (c :: l) = c :: stripFences l := by
  rw [stripFences.eq_def]
  split
  · rename_i heq; injection heq with h1 _; exact absurd h1 h
  · rename_i heq; injection heq with h1 _; exact absurd h1 h
  · rename_i heq; injection heq with h1 h2; rw [h1, h2]
  · rename_i heq; exact absurd heq (by simp)

lemma stripFences_cons2 (c2 : Char) (l : List Char) (h : c2 ≠ '\x60') :
    stripFences ('\x60' :: c2 :: l) = '\x60' :: stripFences (c2 :: l) := by
  rw [stripFences.eq_def]
  split
  · rename_i heq
    injection heq with _ heq; injection heq with h1 _; exact absurd h1 h
  · rename_i heq
    injection heq with _ heq; injection heq with h1 _; exact absurd h1 h
  · rename_i heq; injection heq with h1 h2; rw [h1, h2]
  · rename_i heq; exact absurd heq (by simp)

lemma stripFences_cons3 (c3 : Char) (l : List Char) (h : c3 ≠ '\x60') :
    stripFences ('\x60' :: '\x60' :: c3 :: l) =
      '\x60' :: stripFences ('\x60' :: c3 :: l) := by
  rw [stripFences.eq_def]
  split
  · rename_i heq
    injection heq with _ heq; injection heq with _ heq
    injection heq with h1 _; exact absurd h1 h
  · rename_i heq
    injection heq with _ heq; injection heq with _ heq
    injection heq with h1 _; exact absurd h1 h
  · rename_i heq; injection heq with h1 h2; rw [← h2, ← h1]
  · rename_i heq; exact absurd heq (by simp)

lemma hasTriple_tail {c : Char} {l : List Char} (h : hasTriple (c :: l) = false) :
    hasTriple l = false := by
  cases l with
  | nil => rfl
  | cons d l2 =>
      cases l2 with
      | nil => rfl
      | cons e l3 =>
          simp only [hasTriple, Bool.or_eq_false_iff] at h
          exact h.2

lemma stripFences_append_suffix (t : List Char) (h : hasTriple t = false) :
    stripFences (t ++ fenceSuf) = t ++ ['\n'] := by
  induction t with
  | nil => rfl
  | cons c t ih =>
      by_cases hc : c = '\x60'
      · subst hc
        cases t with
        | nil => rfl
        | cons d t2 =>
            by_cases hd : d = '\x60'
            · subst hd
              cases t2 with
              | nil => rfl
              | cons e t3 =>
                  by_cases he : e = '\x60'
                  · subst he; simp [hasTriple] at h
                  · rw [show ('\x60' :: '\x60' :: e :: t3) ++ fenceSuf =
                      '\x60' :: '\x60' :: e :: (t3 ++ fenceSuf) from rfl]
                    rw [stripFences_cons3 e (t3 ++ fenceSuf) he]
                    rw [show ('\x60' :: e :: (t3 ++ fenceSuf)) =
                      ('\x60' :: e :: t3) ++ fenceSuf from rfl]
                    rw [ih (hasTriple_tail h)]
                    rfl
            · rw [show ('\x60' :: d :: t2) ++ fenceSuf =
                '\x60' :: d :: (t2 ++ fenceSuf) from rfl]
              rw [stripFences_cons2 d (t2 ++ fenceSuf) hd]
              rw [show (d :: (t2 ++ fenceSuf)) = (d :: t2) ++ fenceSuf from rfl]
              rw [ih (hasTriple_tail h)]
              rfl
      · rw [show (c :: t) ++ fenceSuf = c :: (t ++ fenceSuf) from rfl]
        rw [stripFences_cons_ne c _ hc, ih (hasTriple_tail h)]
        rfl

lemma stripFences_wrapFence (t : List Char) (h : hasTriple t = false) :
    stripFences (wrapFence t) = '\n' :: (t ++ ['\n']) := by
  rw [show stripFences (wrapFence t) = stripFences ('\n' :: (t ++ fenceSuf)) from rfl]
  rw [stripFences_cons_ne '\n' _ (by decide)]
  rw [stripFences_append_suffix t h]

lemma trimChars_pad (t : List Char) :
    trimChars ('\n' :: (t ++ ['\n'])) = trimChars t := by
  unfold trimChars
  rw [List.dropWhile_cons_of_pos (by decide), List.dropWhile_append]
  split
  · rename_i hemp
    have h0 : t.dropWhile wsChar = [] := by
      simpa [List.isEmpty_iff] using hemp
    rw [h0]
    rfl
  · rw [List.reverse_append]
    simp only [List.reverse_cons, List.reverse_nil, List.nil_append, List.singleton_append]
    rw [List.dropWhile_cons_of_pos (by decide)]

lemma parseP_backtick (f : Nat) (l : List Char) :
    parseP (f + 1) .value ('\x60' :: l) = none := rfl

lemma jsonParse_wrapFence (t : List Char) : jsonParse (wrapFence t) = .error () := by
  unfold jsonParse
  rw [trimChars_wrapFence]
  rw [show wrapFence t =
    '\x60' :: ('\x60' :: '\x60' :: 'j' :: 's' :: 'o' :: 'n' :: '\n' :: (t ++ fenceSuf))
    from rfl]
  rw [parseP_backtick]

/-! ### Claim theorems: the diagnose parse/repair step -/

/-- C9 (counterexample): a JSON text containing three backticks inside a
string literal parses to a different object after fence wrapping — the
global fence-strip regex also deletes the backticks inside the string. -/
theorem diagnose_fence_counterexample :
    jsonParse ("\x7b\"a\":\"\x60\x60\x60\"\x7d".data) =
      .ok (.obj [("a", .str "\x60\x60\x60")]) ∧
    diagParseStep (wrapFence ("\x7b\"a\":\"\x60\x60\x60\"\x7d".data)) =
      .ok (.obj [("a", .str "")]) ∧
    Json.obj [("a", Json.str "\x60\x60\x60")] ≠ Json.obj [("a", Json.str "")] := by
  refine ⟨rfl, rfl, ?_⟩
  intro hcontra
  simp at hcontra

/-- C9 (amended): for every JSON text that parses to an object and contains
no occurrence of three consecutive backticks, the diagnose parse step
applied to the fence-wrapped text yields the same object as parsing the
unwrapped text, and a text unparsable even after fence stripping makes the
step fail with no further repair. -/
theorem diagnose_fence_roundtrip :
    (∀ (t : List Char) (o : Json), jsonParse t = .ok o → hasTriple t = false →
        diagParseStep (wrapFence t) = .ok o) ∧
    (∀ raw : List Char, jsonParse raw = .error () →
        jsonParse (trimChars (stripFences raw)) = .error () →
        diagParseStep raw = .error ()) := by
  constructor
  · intro t o hp ht
    unfold diagParseStep
    rw [jsonParse_wrapFence]
    show jsonParse (trimChars (stripFences (wrapFence t))) = .ok o
    rw [stripFences_wrapFence t ht, trimChars_pad, jsonParse_trimChars]
    exact hp
  · intro raw h1 h2
    unfold diagParseStep
    rw [h1]
    exact h2

theorem diagnose_fence_roundtrip_witness :
    jsonParse ("\x7b\"a\":1\x7d".data) = .ok (.obj [("a", .num 1)]) ∧
    hasTriple ("\x7b\"a\":1\x7d".data) = false ∧
    diagParseStep (wrapFence ("\x7b\"a\":1\x7d".data)) = .ok (.obj [("a", .num 1)]) ∧
    jsonParse ("nope".data) = .error () ∧
    jsonParse (trimChars (stripFences ("nope".data))) = .error () ∧
    diagParseStep ("nope".data) = .error () :=
  ⟨rfl, rfl, diagnose_fence_roundtrip.1 _ _ rfl rfl, rfl, rfl,
    diagnose_fence_roundtrip.2 _ rfl rfl⟩

end TP
